import Mathlib

/-!
Verification of a synthetic-load and health-check engine for a multi-tenant
notebook-execution service. Pure functions below embed the relevant source
modules (timing, protocol client, user generation, supervision loop, lab
spawning); side effects (HTTP responses, probe results, clock readings) are
passed as explicit inputs, and raised exceptions are explicit result values.
-/

namespace Mobu

/-! ## Timing model: `mobu/timing.py` -/

/-- Timestamps are modelled as rational seconds; `datetime.isoformat` is
modelled as the literal printing of the timestamp, and
`timedelta.total_seconds()` is the identity. -/
def isoformat (t : ℚ) : String := toString t

/-- Model of `mobu.timing.Stopwatch`. The `previous` back-reference is
passed to `Stopwatch.start` as the previous record's stop time, which is
the only data `__post_init__` reads; the raw-object passthrough of
`previous` in `dump` is not tracked. -/
structure Stopwatch where
  start_time : ℚ
  stop_time : Option ℚ
  elapsed : ℚ
  elapsed_since_previous_stop : ℚ
  event : String
  annotation : List (String × String)
deriving DecidableEq

/-- Model of `Stopwatch.start`: opens a record at time `now`, chained after
the previous record (represented by its stop time, when present). -/
def Stopwatch.start (event : String) ( annotation : List (String × String))
    (previous : Option (Option ℚ)) (now : ℚ) : Stopwatch :=
  { start_time := now
    stop_time := none
    elapsed := 0
    elapsed_since_previous_stop :=
      match previous with
      | some (some t) => now - t
      | _ => 0
    event := event
    annotation := annotation }

/-- Model of `Stopwatch.stop`. Python mutates the record in place and may
raise `StopwatchAlreadyStopped`; here the first component is the raised
message (`none` when no exception was raised) and the second component is
the record after the call. -/
def Stopwatch.stop (sw : Stopwatch) (now : ℚ) : Option String × Stopwatch :=
  match sw.stop_time with
  | some t => (some ("Stopwatch already stopped at " ++ isoformat t), sw)
  | none => (none, { sw with stop_time := some now, elapsed := now - sw.start_time })

/-- Callers may replace an open record's annotations before closing it. -/
def Stopwatch.setAnnotation (sw : Stopwatch) (a : List (String × String)) : Stopwatch :=
  { sw with annotation := a }

/-- Result shape of `Stopwatch.dump`: `stop` is nullable, `elapsed` is
always a number. -/
structure StopwatchDump where
  event : String
  annotation : List (String × String)
  start : String
  stop : Option String
  elapsed : ℚ
  elapsed_since_previous_stop : ℚ
deriving DecidableEq

/-- Model of `Stopwatch.dump`. -/
def Stopwatch.dump (sw : Stopwatch) : StopwatchDump :=
  { event := sw.event
    annotation := Stopwatch.annotation sw
    start := isoformat sw.start_time
    stop := sw.stop_time.map isoformat
    elapsed := sw.elapsed
    elapsed_since_previous_stop := sw.elapsed_since_previous_stop }

/-- The states a `Stopwatch` can actually be in: created by `start`, with
annotations possibly replaced, and possibly stopped. -/
inductive Stopwatch.Reachable : Stopwatch → Prop where
  | start : ∀ ev ann prev now, Stopwatch.Reachable (Stopwatch.start ev ann prev now)
  | annotate : ∀ sw a, Stopwatch.Reachable sw → Stopwatch.Reachable (Stopwatch.setAnnotation sw a)
  | stop : ∀ sw now, Stopwatch.Reachable sw → Stopwatch.Reachable (Stopwatch.stop sw now).2

/-! ## ANSI control-sequence stripping: `JupyterClient._ansi_escape`

The compiled pattern is `(\x9B|\x1B\[)[0-?]*[ -\/]*[@-~]` and `re.sub`
replaces every non-overlapping occurrence, scanning left to right. The
three character classes are pairwise disjoint, so the greedy scan below is
exactly the regex match. -/

/-- Character class `[0-?]` (CSI parameter bytes, 0x30 to 0x3F). -/
def isParamByte (c : Char) : Bool := 0x30 ≤ c.toNat && c.toNat ≤ 0x3F

/-- Character class of the CSI intermediate bytes, 0x20 to 0x2F. -/
def isInterByte (c : Char) : Bool := 0x20 ≤ c.toNat && c.toNat ≤ 0x2F

/-- Character class `[@-~]` (CSI final bytes, 0x40 to 0x7E). -/
def isFinalByte (c : Char) : Bool := 0x40 ≤ c.toNat && c.toNat ≤ 0x7E

/-- Match `[0-?]*[ -\/]*[@-~]` at the head of `cs`, returning the suffix
after the match. -/
def matchCsiTail (cs : List Char) : Option (List Char) :=
  match (cs.dropWhile isParamByte).dropWhile isInterByte with
  | c :: rest => if isFinalByte c then some rest else none
  | [] => none

/-- Match the whole pattern (the 0x9B or `ESC [` introducer, then the
three classes) at the head of `l`, returning the suffix after the match. -/
def matchCsiStart : List Char → Option (List Char)
  | [] => none
  | c :: rest =>
    if c = '\x9B' then matchCsiTail rest
    else if c = '\x1B' then
      match rest with
      | [] => none
      | c2 :: rest2 => if c2 = '[' then matchCsiTail rest2 else none
    else none

theorem dropWhile_length_le (p : Char → Bool) (l : List Char) :
    (l.dropWhile p).length ≤ l.length := by
  induction l with
  | nil => simp
  | cons x xs ih => rw [List.dropWhile_cons]; split <;> simp <;> omega

theorem matchCsiTail_length {cs r : List Char} (h : matchCsiTail cs = some r) :
    r.length < cs.length := by
  unfold matchCsiTail at h
  cases hd : (cs.dropWhile isParamByte).dropWhile isInterByte with
  | nil => rw [hd] at h; exact absurd h (by simp)
  | cons c rest =>
      rw [hd] at h
      by_cases hf : isFinalByte c = true
      · simp [hf] at h
        subst h
        have h1 : (c :: rest).length ≤ (cs.dropWhile isParamByte).length := by
          rw [← hd]; exact dropWhile_length_le _ _
        have h2 : (cs.dropWhile isParamByte).length ≤ cs.length :=
          dropWhile_length_le _ _
        simp only [List.length_cons] at h1
        omega
      · simp [hf] at h

theorem matchCsiStart_length {l r : List Char} (h : matchCsiStart l = some r) :
    r.length < l.length := by
  cases l with
  | nil => simp [matchCsiStart] at h
  | cons c rest =>
      by_cases h9 : c = '\x9B'
      · simp only [matchCsiStart, h9, if_true] at h
        have := matchCsiTail_length h
        simp only [List.length_cons]; omega
      · by_cases h1 : c = '\x1B'
        · simp only [matchCsiStart, h9, h1, if_true, if_false] at h
          cases rest with
          | nil => simp at h
          | cons c2 rest2 =>
              by_cases hb : c2 = '['
              · simp only [hb, if_true] at h
                have := matchCsiTail_length h
                simp only [List.length_cons]; omega
              · simp [hb] at h
        · simp [matchCsiStart, h9, h1] at h

/-- Model of `re.sub` with the compiled pattern: delete every
non-overlapping occurrence, scanning left to right. -/
def ansiStrip (l : List Char) : List Char :=
  match h : matchCsiStart l with
  | some rest => ansiStrip rest
  | none =>
    match l with
    | [] => []
    | c :: cs => c :: ansiStrip cs
termination_by l.length
decreasing_by
  · exact matchCsiStart_length h
  · simp only [List.length_cons]; omega

/-- Model of `JupyterClient._ansi_escape`. -/
def ansi_escape (s : String) : String := String.mk (ansiStrip s.data)

/-- Model of Python `"".join`. -/
def concatAll : List String → String
  | [] => ""
  | s :: rest => s ++ concatAll rest

/-- A CSI control sequence as the claim describes it: an introducer (the
8-bit 0x9B form or `ESC [`), parameter bytes, intermediate bytes, and one
final byte. -/
def IsCsiSeq (l : List Char) : Prop :=
  ∃ opener params inters last,
    (opener = ['\x9B'] ∨ opener = ['\x1B', '[']) ∧
    l = opener ++ (params ++ (inters ++ [last])) ∧
    (∀ c ∈ params, isParamByte c = true) ∧
    (∀ c ∈ inters, isInterByte c = true) ∧
    isFinalByte last = true

/-! ## Code execution over the kernel websocket: `JupyterClient.run_python` -/

/-- The content of one kernel websocket message, as far as `run_python`
reads it: the message type together with the content field the code
accesses for that type. -/
inductive KMsgBody where
  | error (traceback : List String)
  | stream (text : String)
  | execute_reply (status : String)
  | other (msg_type : String)
deriving DecidableEq

/-- One kernel websocket message: its parent-header correlation id and its
body. -/
structure KernelMessage where
  parent_msg_id : String
  body : KMsgBody
deriving DecidableEq

/-- Whether a message body is a stream message. -/
def KMsgBody.isStream : KMsgBody → Bool
  | .stream _ => true
  | _ => false

/-- Outcome of `run_python`: normal return, a raised `NotebookException`,
or the websocket ran out of messages (the real coroutine would block). -/
inductive RunPythonResult where
  | ok (output : String)
  | notebookException (msg : String)
  | blocked
deriving DecidableEq

/-- Model of the receive loop of `JupyterClient.run_python`: `result` is
the accumulated stream output, and the list holds the messages the
websocket will deliver, in order. -/
def run_python_loop (msg_id : String) (result : String) : List KernelMessage → RunPythonResult
  | [] => .blocked
  | r :: rest =>
    if r.parent_msg_id ≠ msg_id then run_python_loop msg_id result rest
    else
      match r.body with
      | .error tb => .notebookException (ansi_escape (concatAll tb))
      | .stream text => run_python_loop msg_id (result ++ text) rest
      | .execute_reply status =>
          if status = "ok" then .ok result
          else .notebookException ("Result status is " ++ status)
      | .other _ => run_python_loop msg_id result rest

/-- Model of `JupyterClient.run_python` after sending the execute request
with fresh correlation id `msg_id`. -/
def run_python (msg_id : String) (msgs : List KernelMessage) : RunPythonResult :=
  run_python_loop msg_id "" msgs

/-- The texts of the stream messages whose parent correlation id matches,
in order. -/
def matchingStreamTexts (msg_id : String) (msgs : List KernelMessage) : List String :=
  msgs.filterMap fun m =>
    if m.parent_msg_id = msg_id then
      match m.body with
      | .stream t => some t
      | _ => none
    else none

/-! ## Lab state classification: `JupyterClient.is_lab_running` -/

/-- Python substring membership `needle in hay`. -/
def occursIn (needle : List Char) : List Char → Bool
  | [] => needle.isEmpty
  | c :: rest => needle.isPrefixOf (c :: rest) || occursIn needle rest

/-- URL the client compares against for the spawn form. -/
def spawn_url (base : String) : String := base ++ "hub/spawn"

/-- URL prefix the client looks for while a spawn is pending. -/
def spawn_pending_url (base username : String) : String :=
  base ++ "hub/spawn-pending/" ++ username

/-- URL of the running lab. -/
def lab_url (base username : String) : String :=
  base ++ "user/" ++ username ++ "/lab"

/-- Observable outcome of `is_lab_running`: the returned boolean, whether
the unexpected-redirect warning was logged, and whether the non-200 error
was logged. -/
structure LabCheck where
  running : Bool
  warnedUnexpected : Bool
  loggedError : Bool
deriving DecidableEq

/-- Model of `JupyterClient.is_lab_running`: `status` and `finalUrl` are
the status code and final (post-redirect) URL of the GET on the hub root. -/
def is_lab_running (base username : String) (status : Nat) (finalUrl : String) : LabCheck :=
  if status ≠ 200 then ⟨false, false, true⟩
  else if finalUrl == spawn_url base
      || occursIn (spawn_pending_url base username).data finalUrl.data then
    ⟨false, false, false⟩
  else if finalUrl == lab_url base username then ⟨true, false, false⟩
  else ⟨false, true, false⟩

/-! ## Lab deletion: `JupyterClient.delete_lab`

The environment is modelled by `probes`, the successive results of the
`is_lab_running` calls the method makes (index 0 is the initial check),
and by `status`, the HTTP status of the DELETE. -/

/-- Observable outcome of `delete_lab`: whether the DELETE was issued, how
many one-second waits were performed, whether the giving-up warning was
logged, and whether the call returned without raising. -/
structure DeleteLabTrace where
  deleteIssued : Bool
  sleeps : Nat
  gaveUp : Bool
  ok : Bool
deriving DecidableEq

/-- The `while await self.is_lab_running() and count < 10` wait loop:
`fuel = 10 - count`; returns the number of sleeps performed and the index
of the next unconsumed probe. The running check is evaluated before the
counter bound, so it consumes a probe even on the final test. -/
def deleteWaitLoop (probes : Nat → Bool) : Nat → Nat → Nat × Nat
  | idx, 0 => (0, idx + 1)
  | idx, fuel + 1 =>
    if probes idx then
      let r := deleteWaitLoop probes (idx + 1) fuel
      (r.1 + 1, r.2)
    else (0, idx + 1)

/-- Model of `JupyterClient.delete_lab`. -/
def delete_lab (probes : Nat → Bool) (status : Nat) : DeleteLabTrace :=
  if probes 0 = false then ⟨false, 0, false, true⟩
  else if status = 200 ∨ status = 202 ∨ status = 204 then
    let r := deleteWaitLoop probes 1 10
    ⟨true, r.1, probes r.2, true⟩
  else ⟨true, 0, false, false⟩

/-! ## Monkey supervision loop: `Monkey._runner` -/

/-- One pass of the supervised Business: it returns cleanly, is cancelled,
or raises some other exception. -/
inductive BusinessOutcome where
  | clean
  | cancelled
  | error (msg : String)
deriving DecidableEq

/-- Observable trace of `_runner`: every assignment to `self.state` in
order, the alerts sent, the number of 60-second backoff sleeps, and
whether the loop terminated (`exited = false` means the loop was still
going to run the Business again when the supplied outcome list ended). -/
structure RunnerTrace where
  states : List String
  alerts : List String
  sleeps : Nat
  exited : Bool
deriving DecidableEq

/-- Model of `Monkey._runner`, driven by the list of successive Business
outcomes. -/
def runnerGo (restart : Bool) : List BusinessOutcome → RunnerTrace
  | [] => ⟨[], [], 0, false⟩
  | o :: rest =>
    match o with
    | .clean =>
        let t := runnerGo restart rest
        ⟨"RUNNING" :: "FINISHED" :: t.states, t.alerts, t.sleeps, t.exited⟩
    | .cancelled => ⟨["RUNNING"], [], 0, true⟩
    | .error e =>
        if restart then
          let t := runnerGo restart rest
          ⟨"RUNNING" :: "ERROR" :: t.states, e :: t.alerts, t.sleeps + 1, t.exited⟩
        else ⟨["RUNNING", "ERROR"], [e], 1, true⟩

/-! ## User generation: `Flock._users_from_spec` -/

/-- Decimal digit characters, as produced by Python `str` on a digit. -/
def digitChar : Nat → Char
  | 0 => '0'
  | 1 => '1'
  | 2 => '2'
  | 3 => '3'
  | 4 => '4'
  | 5 => '5'
  | 6 => '6'
  | 7 => '7'
  | 8 => '8'
  | 9 => '9'
  | _ => '*'

/-- Model of Python `str(n)` for a natural number: its decimal digits,
most significant first. -/
def decimalDigits (n : Nat) : List Char :=
  if n < 10 then [digitChar n]
  else decimalDigits (n / 10) ++ [digitChar (n % 10)]
termination_by n
decreasing_by exact Nat.div_lt_self (by omega) (by omega)

/-- Model of Python `str.zfill`: left-pad with zeros to width `w`. -/
def zfill (w : Nat) (s : List Char) : List Char :=
  List.replicate (w - s.length) '0' ++ s

/-- The decimal digits of `n` written in exactly `w` positions (leading
zeros included); agrees with `zfill w (decimalDigits n)` when the digits
fit. -/
def fixedDigits : Nat → Nat → List Char
  | 0, _ => []
  | w + 1, n => fixedDigits w (n / 10) ++ [digitChar (n % 10)]

/-- Model of `mobu.models.user.User` as `_users_from_spec` builds it. -/
structure User where
  username : String
  uidnumber : Option Int
  gidnumber : Option Int
deriving DecidableEq

/-- Model of `mobu.models.user.UserSpec`. -/
structure UserSpec where
  username_prefix : String
  uid_start : Option Int
  gid_start : Option Int
deriving DecidableEq

/-- Model of `Flock._users_from_spec`: `padding = int(math.log10(count) + 1)`
and users for `i` in `1..count` with username `prefix + str(i).zfill(padding)`
and uid/gid `start + i - 1` when a start is given. -/
def users_from_spec (spec : UserSpec) (count : Nat) : List User :=
  (List.range' 1 count).map fun i =>
    { username := UserSpec.username_prefix spec
        ++ String.mk (zfill (Nat.log 10 count + 1) (decimalDigits i))
      uidnumber := (UserSpec.uid_start spec).map fun u => u + (i : Int) - 1
      gidnumber := (UserSpec.gid_start spec).map fun g => g + (i : Int) - 1 }

/-! ## Lab spawning: `NubladoBusiness.spawn_lab` (services/business/nublado.py)
and the legacy `JupyterLoginLoop.spawn_lab` (business/jupyterloginloop.py) -/

/-- One message yielded by the spawn progress stream, paired with the
formatted timestamp its `ProgressLogMessage` log line will carry. -/
structure ProgressMessage where
  message : String
  ready : Bool
  timestampStr : String
deriving DecidableEq

/-- The log line produced for one progress message (its `__str__`). -/
def progressLine (m : ProgressMessage) : String :=
  m.timestampStr ++ " - " ++ m.message

/-- The joined progress log carried by spawn errors. -/
def joinedLog (msgs : List ProgressMessage) : String :=
  String.intercalate "\n" (msgs.map progressLine)

/-- How the progress iteration ends when no ready message was seen: the
iteration simply ends (stream closed, or the time budget expired), or an
exception escapes it. Modelled from the spec: the missing
`Business.iter_with_timeout` consumes the stream under the remaining time
budget and ends the iteration when either the stream closes or the budget
expires, and the missing progress-stream client may raise protocol errors
(Slack-reportable or not) or a `TimeoutError`. -/
inductive StreamOutcome where
  | ended
  | raisedTimeout
  | raisedSlack (e : String)
  | raisedOther (e : String)
deriving DecidableEq

/-- Result of one spawn attempt: returned `True`, returned `False`
(aborted), raised `JupyterTimeoutError msg log`, raised
`JupyterSpawnError log`, raised `JupyterSpawnError.from_exception log exc`,
re-raised a Slack-reportable exception, or let an exception propagate
uncaught (legacy variant, which has no handlers). -/
inductive SpawnResult where
  | success
  | returnedFalse
  | timeoutError (msg : String) (log : String)
  | spawnError (log : String)
  | spawnErrorFrom (log : String) (exc : String)
  | reraised (e : String)
  | uncaught (e : String)
deriving DecidableEq

/-- Whether a spawn result is the raised timeout error. -/
def SpawnResult.isTimeoutError : SpawnResult → Bool
  | .timeoutError _ _ => true
  | _ => false

/-- Consume the progress stream as the `async for` body does: log each
message, stop at the first ready message; returns whether ready was seen
and the messages logged up to that point. -/
def consumeProgress : List ProgressMessage → List ProgressMessage → Bool × List ProgressMessage
  | [], acc => (false, acc.reverse)
  | m :: rest, acc =>
    if m.ready then (true, (m :: acc).reverse)
    else consumeProgress rest (m :: acc)

/-- Python `round`: round half to even. -/
def pyRound (q : ℚ) : Int :=
  if q - ⌊q⌋ < 1 / 2 then ⌊q⌋
  else if 1 / 2 < q - ⌊q⌋ then ⌊q⌋ + 1
  else if ⌊q⌋ % 2 = 0 then ⌊q⌋ else ⌊q⌋ + 1

/-- Model of `NubladoBusiness.spawn_lab`. Inputs: the two option values,
whether the settle pause was interrupted by a stop request, the progress
messages yielded before the iteration ended, how it ended when no ready
message was seen, the stopping flag, and the stopwatch elapsed seconds at
the classification point. -/
def nublado_spawn_lab (spawn_timeout spawn_settle_time : ℚ) (settleInterrupted : Bool)
    (msgs : List ProgressMessage) (outcome : StreamOutcome) (stopping : Bool)
    (elapsed : ℚ) : SpawnResult :=
  if settleInterrupted then .returnedFalse
  else
    let timeout := spawn_timeout - spawn_settle_time
    match consumeProgress msgs [] with
    | (true, _) => .success
    | (false, logMsgs) =>
      match outcome with
      | .raisedTimeout => .spawnError (joinedLog logMsgs)
      | .raisedSlack e => .reraised e
      | .raisedOther e => .spawnErrorFrom (joinedLog logMsgs) e
      | .ended =>
        if stopping then .returnedFalse
        else if elapsed > timeout then
          .timeoutError ("Lab did not spawn after " ++ toString (pyRound elapsed) ++ "s")
            (joinedLog logMsgs)
        else .spawnError (joinedLog logMsgs)

/-- Model of the legacy `JupyterLoginLoop.spawn_lab`: no handlers around
the iteration (exceptions propagate uncaught), the budget is the whole
`spawn_timeout`, and the timeout message states the configured timeout
rather than the elapsed time. -/
def legacy_spawn_lab (spawn_timeout : Int) (msgs : List ProgressMessage)
    (outcome : StreamOutcome) (stopping : Bool) (elapsed : ℚ) : SpawnResult :=
  match consumeProgress msgs [] with
  | (true, _) => .success
  | (false, logMsgs) =>
    match outcome with
    | .raisedTimeout => .uncaught "TimeoutError"
    | .raisedSlack e => .uncaught e
    | .raisedOther e => .uncaught e
    | .ended =>
      if stopping then .returnedFalse
      else if elapsed > (spawn_timeout : ℚ) then
        .timeoutError ("Lab did not spawn after " ++ toString spawn_timeout ++ "s")
          (joinedLog logMsgs)
      else .spawnError (joinedLog logMsgs)

/-- A reachable record that has not been stopped still has the zero
`elapsed` it was created with. -/
theorem Stopwatch.reachable_open_elapsed (sw : Stopwatch) (h : Stopwatch.Reachable sw)
    (hopen : sw.stop_time = none) : sw.elapsed = 0 := by
  induction h with
  | start ev ann prev now => rfl
  | annotate sw a _ ih =>
      simp only [Stopwatch.setAnnotation] at hopen ⊢
      exact ih hopen
  | stop sw now _ ih =>
      cases hst : sw.stop_time with
      | some t => simp [Stopwatch.stop, hst] at hopen
      | none => simp [Stopwatch.stop, hst] at hopen

/-- C6: `Stopwatch.stop` raises the already-stopped error exactly when the
record is already closed (the raised message names the existing stop time);
on the error path every field of the record is unchanged; on the success
path it sets `stop_time := now` and sets `elapsed` to exactly
`now - start_time`, leaving the other fields unchanged. -/
theorem stopwatch_stop_characterization (sw : Stopwatch) (now : ℚ) :
    Stopwatch.stop sw now =
      (sw.stop_time.map (fun t => "Stopwatch already stopped at " ++ isoformat t),
       if sw.stop_time.isSome then sw
       else { sw with stop_time := some now, elapsed := now - sw.start_time }) := by
  cases h : sw.stop_time <;> simp [Stopwatch.stop, h]

/-- C10: for every reachable record that is still open, `dump` reports the
`stop` field as `none` and the `elapsed` field as exactly `0` (a number,
not a null); and for every record, `dump` preserves the event name and the
annotation mapping. -/
theorem stopwatch_dump_open_record (sw : Stopwatch) (h : Stopwatch.Reachable sw) :
    (sw.stop_time = none →
      (Stopwatch.dump sw).stop = none ∧ (Stopwatch.dump sw).elapsed = 0) ∧
    (Stopwatch.dump sw).event = sw.event ∧
    StopwatchDump.annotation (Stopwatch.dump sw) = Stopwatch.annotation sw := by
  refine ⟨fun hopen => ?_, rfl, rfl⟩
  refine ⟨?_, ?_⟩
  · simp [Stopwatch.dump, hopen]
  · simpa [Stopwatch.dump] using Stopwatch.reachable_open_elapsed sw h hopen

/-- Evaluation of `stopwatch_dump_open_record` on a freshly started record. -/
theorem stopwatch_dump_open_record_witness :
    ((Stopwatch.start "ev" [("k", "v")] none 5).stop_time = none) ∧
    ((Stopwatch.dump (Stopwatch.start "ev" [("k", "v")] none 5)).stop = none ∧
     (Stopwatch.dump (Stopwatch.start "ev" [("k", "v")] none 5)).elapsed = 0) :=
  ⟨rfl, (stopwatch_dump_open_record _ (Stopwatch.Reachable.start "ev" [("k", "v")] none 5)).1 rfl⟩

theorem ansiStrip_nil : ansiStrip [] = [] := by
  rw [ansiStrip]
  rfl

theorem ansiStrip_pos {l r : List Char} (h : matchCsiStart l = some r) :
    ansiStrip l = ansiStrip r := by
  rw [ansiStrip]
  split
  · next rest heq => rw [h] at heq; cases heq; rfl
  · next heq => rw [h] at heq; cases heq

theorem ansiStrip_neg {c : Char} {cs : List Char} (h : matchCsiStart (c :: cs) = none) :
    ansiStrip (c :: cs) = c :: ansiStrip cs := by
  rw [ansiStrip]
  split
  · next rest heq => rw [h] at heq; cases heq
  · rfl

theorem inter_not_param {c : Char} (h : isInterByte c = true) : isParamByte c = false := by
  cases hpc : isParamByte c with
  | false => rfl
  | true =>
      exfalso
      simp only [isInterByte, Bool.and_eq_true, decide_eq_true_eq] at h
      simp only [isParamByte, Bool.and_eq_true, decide_eq_true_eq] at hpc
      omega

theorem final_not_param {c : Char} (h : isFinalByte c = true) : isParamByte c = false := by
  cases hpc : isParamByte c with
  | false => rfl
  | true =>
      exfalso
      simp only [isFinalByte, Bool.and_eq_true, decide_eq_true_eq] at h
      simp only [isParamByte, Bool.and_eq_true, decide_eq_true_eq] at hpc
      omega

theorem final_not_inter {c : Char} (h : isFinalByte c = true) : isInterByte c = false := by
  cases hpc : isInterByte c with
  | false => rfl
  | true =>
      exfalso
      simp only [isFinalByte, Bool.and_eq_true, decide_eq_true_eq] at h
      simp only [isInterByte, Bool.and_eq_true, decide_eq_true_eq] at hpc
      omega

theorem dropWhile_append_all {p : Char → Bool} (xs : List Char) (y : Char) (ys : List Char)
    (hx : ∀ c ∈ xs, p c = true) (hy : p y = false) :
    (xs ++ y :: ys).dropWhile p = y :: ys := by
  induction xs with
  | nil => simp [List.dropWhile_cons, hy]
  | cons x xs ih =>
      have hx0 : p x = true := hx x (List.mem_cons_self x xs)
      rw [List.cons_append, List.dropWhile_cons]
      simp only [hx0, if_true]
      exact ih fun c hc => hx c (List.mem_cons_of_mem _ hc)

theorem matchCsiTail_spec (params inters : List Char) (last : Char) (b : List Char)
    (hp : ∀ c ∈ params, isParamByte c = true) (hi : ∀ c ∈ inters, isInterByte c = true)
    (hf : isFinalByte last = true) :
    matchCsiTail (params ++ (inters ++ (last :: b))) = some b := by
  unfold matchCsiTail
  have h1 : (params ++ (inters ++ (last :: b))).dropWhile isParamByte = inters ++ (last :: b) := by
    cases inters with
    | nil => simpa using dropWhile_append_all params last b hp (final_not_param hf)
    | cons i is =>
        have hi0 : isParamByte i = false :=
          inter_not_param (hi i (List.mem_cons_self i is))
        simpa using dropWhile_append_all params i (is ++ (last :: b)) hp hi0
  rw [h1]
  have h2 : (inters ++ (last :: b)).dropWhile isInterByte = last :: b :=
    dropWhile_append_all inters last b hi (final_not_inter hf)
  rw [h2]
  simp [hf]

theorem matchCsiStart_csi {seq : List Char} (b : List Char) (h : IsCsiSeq seq) :
    matchCsiStart (seq ++ b) = some b := by
  obtain ⟨opener, params, inters, last, hop, hseq, hp, hi, hf⟩ := h
  subst hseq
  cases hop with
  | inl h9 =>
      subst h9
      have hshape : (['\x9B'] ++ (params ++ (inters ++ [last]))) ++ b
          = '\x9B' :: (params ++ (inters ++ (last :: b))) := by simp
      rw [hshape]
      simp only [matchCsiStart, if_true]
      exact matchCsiTail_spec params inters last b hp hi hf
  | inr h2 =>
      subst h2
      have hshape : (['\x1B', '['] ++ (params ++ (inters ++ [last]))) ++ b
          = '\x1B' :: '[' :: (params ++ (inters ++ (last :: b))) := by simp
      rw [hshape]
      have hne : ('\x1B' : Char) ≠ '\x9B' := by decide
      simp only [matchCsiStart, hne, if_false, if_true]
      exact matchCsiTail_spec params inters last b hp hi hf

theorem matchCsiStart_no_starter {c : Char} {cs : List Char}
    (h9 : c ≠ '\x9B') (h1 : c ≠ '\x1B') : matchCsiStart (c :: cs) = none := by
  simp [matchCsiStart, h9, h1]

theorem ansiStrip_clean (l : List Char) (h : ∀ c ∈ l, c ≠ '\x9B' ∧ c ≠ '\x1B') :
    ansiStrip l = l := by
  induction l with
  | nil => exact ansiStrip_nil
  | cons c cs ih =>
      obtain ⟨h9, h1⟩ := h c (List.mem_cons_self c cs)
      rw [ansiStrip_neg (matchCsiStart_no_starter h9 h1),
        ih fun x hx => h x (List.mem_cons_of_mem _ hx)]

theorem ansiStrip_removes (a seq b : List Char) (ha : ∀ c ∈ a, c ≠ '\x9B' ∧ c ≠ '\x1B')
    (hs : IsCsiSeq seq) : ansiStrip (a ++ (seq ++ b)) = a ++ ansiStrip b := by
  induction a with
  | nil => simpa using ansiStrip_pos (matchCsiStart_csi b hs)
  | cons c a ih =>
      obtain ⟨h9, h1⟩ := ha c (List.mem_cons_self c a)
      rw [List.cons_append, ansiStrip_neg (matchCsiStart_no_starter h9 h1),
        ih fun x hx => ha x (List.mem_cons_of_mem _ hx), List.cons_append]

theorem empty_append_str (s : String) : "" ++ s = s := by
  cases s
  rfl

theorem run_python_loop_streams (msg_id acc : String) (msgs : List KernelMessage)
    (h : ∀ m ∈ msgs, m.parent_msg_id = msg_id → KMsgBody.isStream m.body = true) :
    run_python_loop msg_id acc (msgs ++ [⟨msg_id, KMsgBody.execute_reply "ok"⟩])
      = RunPythonResult.ok (acc ++ concatAll (matchingStreamTexts msg_id msgs)) := by
  induction msgs generalizing acc with
  | nil =>
      simp [run_python_loop, matchingStreamTexts, concatAll]
  | cons m rest ih =>
      by_cases hp : m.parent_msg_id = msg_id
      · have hs := h m (List.mem_cons_self m rest) hp
        cases hb : m.body with
        | stream t =>
            have h1 : run_python_loop msg_id acc
                  ((m :: rest) ++ [⟨msg_id, KMsgBody.execute_reply "ok"⟩])
                = run_python_loop msg_id (acc ++ t)
                  (rest ++ [⟨msg_id, KMsgBody.execute_reply "ok"⟩]) := by
              rw [List.cons_append]
              simp [run_python_loop, hp, hb]
            have h2 : matchingStreamTexts msg_id (m :: rest)
                = t :: matchingStreamTexts msg_id rest := by
              simp [matchingStreamTexts, hp, hb]
            rw [h1, ih (acc ++ t) fun x hx hpx => h x (List.mem_cons_of_mem _ hx) hpx, h2]
            simp [concatAll, String.append_assoc]
        | error tb => exact absurd hs (by simp [KMsgBody.isStream, hb])
        | execute_reply status => exact absurd hs (by simp [KMsgBody.isStream, hb])
        | other m => exact absurd hs (by simp [KMsgBody.isStream, hb])
      · have h1 : run_python_loop msg_id acc
              ((m :: rest) ++ [⟨msg_id, KMsgBody.execute_reply "ok"⟩])
            = run_python_loop msg_id acc
              (rest ++ [⟨msg_id, KMsgBody.execute_reply "ok"⟩]) := by
          rw [List.cons_append]
          simp [run_python_loop, hp]
        have h2 : matchingStreamTexts msg_id (m :: rest)
            = matchingStreamTexts msg_id rest := by
          simp [matchingStreamTexts, hp]
        rw [h1, ih acc fun x hx hpx => h x (List.mem_cons_of_mem _ hx) hpx, h2]

/-- C2: with a fresh correlation id, a websocket delivery consisting of
non-matching messages interleaved with matching stream messages and ending
with a matching execute_reply of status "ok" makes `run_python` return
exactly the concatenation of the matching stream texts, in order; every
non-matching message is ignored. -/
theorem run_python_streams_ok (msg_id : String) (msgs : List KernelMessage)
    (h : ∀ m ∈ msgs, m.parent_msg_id = msg_id → KMsgBody.isStream m.body = true) :
    run_python msg_id (msgs ++ [⟨msg_id, KMsgBody.execute_reply "ok"⟩])
      = RunPythonResult.ok (concatAll (matchingStreamTexts msg_id msgs)) := by
  have hrun := run_python_loop_streams msg_id "" msgs h
  rw [empty_append_str] at hrun
  exact hrun

/-- Evaluation of `run_python_streams_ok` on one mismatched broadcast
message, one matching stream message, and a matching ok reply. -/
theorem run_python_streams_ok_witness :
    (∀ m ∈ [(⟨"noise", KMsgBody.other "status"⟩ : KernelMessage),
            ⟨"id1", KMsgBody.stream "4"⟩],
        m.parent_msg_id = "id1" → KMsgBody.isStream m.body = true) ∧
    run_python "id1" ([(⟨"noise", KMsgBody.other "status"⟩ : KernelMessage),
            ⟨"id1", KMsgBody.stream "4"⟩] ++ [⟨"id1", KMsgBody.execute_reply "ok"⟩])
      = RunPythonResult.ok (concatAll (matchingStreamTexts "id1"
          [(⟨"noise", KMsgBody.other "status"⟩ : KernelMessage),
            ⟨"id1", KMsgBody.stream "4"⟩])) :=
  ⟨by decide, run_python_streams_ok "id1" _ (by decide)⟩

/-- C8: when the kernel delivers a matching error message, `run_python`
raises a notebook exception carrying the traceback lines concatenated and
passed through the control-sequence stripper; the stripper deletes each
occurrence of a CSI sequence (0x9B or ESC-bracket introducer, parameter
bytes, intermediate bytes, one final byte) and leaves all characters of
introducer-free segments unchanged. -/
theorem ansi_escape_strips_csi :
    (∀ (msg_id acc : String) (tb : List String) (rest : List KernelMessage),
        run_python_loop msg_id acc (⟨msg_id, KMsgBody.error tb⟩ :: rest)
          = RunPythonResult.notebookException (ansi_escape (concatAll tb))) ∧
    (∀ a seq b : List Char, (∀ c ∈ a, c ≠ '\x9B' ∧ c ≠ '\x1B') → IsCsiSeq seq →
        ansiStrip (a ++ (seq ++ b)) = a ++ ansiStrip b) ∧
    (∀ l : List Char, (∀ c ∈ l, c ≠ '\x9B' ∧ c ≠ '\x1B') → ansiStrip l = l) :=
  ⟨fun msg_id acc tb rest => by simp [run_python_loop],
   ansiStrip_removes, ansiStrip_clean⟩

/-- Evaluation of `ansi_escape_strips_csi`: the color sequence ESC `[31m`
is removed between plain characters, and a plain string is unchanged. -/
theorem ansi_escape_strips_csi_witness :
    run_python_loop "id" "" [⟨"id", KMsgBody.error ["boom"]⟩]
        = RunPythonResult.notebookException (ansi_escape (concatAll ["boom"])) ∧
    IsCsiSeq ['\x1B', '[', '3', '1', 'm'] ∧
    ansiStrip (['a'] ++ (['\x1B', '[', '3', '1', 'm'] ++ ['b'])) = ['a'] ++ ansiStrip ['b'] ∧
    ansiStrip ['R', 'E', 'D'] = ['R', 'E', 'D'] :=
  have hcsi : IsCsiSeq ['\x1B', '[', '3', '1', 'm'] :=
    ⟨['\x1B', '['], ['3', '1'], [], 'm', Or.inr rfl, rfl, by decide, by decide, by decide⟩
  ⟨ansi_escape_strips_csi.1 "id" "" ["boom"] [], hcsi,
   ansi_escape_strips_csi.2.1 ['a'] _ ['b'] (by decide) hcsi,
   ansi_escape_strips_csi.2.2 _ (by decide)⟩

/-- C4 counterexample: with the same final URL (the running-lab URL), the
classification differs between a 200 response and a 500 response, so the
check does not classify solely by the final redirect target. -/
theorem is_lab_running_not_url_only :
    is_lab_running "/nb/" "alice" 500 (lab_url "/nb/" "alice")
      ≠ is_lab_running "/nb/" "alice" 200 (lab_url "/nb/" "alice") := by
  decide

/-- C4 (amended): when the GET returns 200, classification is by the final
redirect target alone: running only for the lab URL, stopped for the spawn
URL or any URL containing the spawn-pending URL, and stopped with a
warning for any other URL; a non-200 response is reported stopped
regardless of the final URL, with an error log instead of a warning. -/
theorem is_lab_running_classification (base username : String) (status : Nat)
    (finalUrl : String) :
    ((is_lab_running base username status finalUrl).running = true ↔
      (status = 200 ∧
        ¬(finalUrl = spawn_url base ∨
          occursIn (spawn_pending_url base username).data finalUrl.data = true) ∧
        finalUrl = lab_url base username)) ∧
    ((is_lab_running base username status finalUrl).warnedUnexpected = true ↔
      (status = 200 ∧
        ¬(finalUrl = spawn_url base ∨
          occursIn (spawn_pending_url base username).data finalUrl.data = true) ∧
        finalUrl ≠ lab_url base username)) ∧
    ((is_lab_running base username status finalUrl).loggedError = true ↔ status ≠ 200) := by
  unfold is_lab_running
  split_ifs with h1 h2 h3 <;>
    simp_all [Bool.or_eq_true, beq_iff_eq]

/-- C7 counterexample: when the lab keeps reporting itself as running, the
client-level delete waits, performing ten one-second sleeps before
returning and logging the giving-up warning — so the deprovision call does
itself wait for the environment to be gone. -/
theorem delete_lab_waits_counterexample :
    (delete_lab (fun _ => true) 200).sleeps = 10 ∧
    (delete_lab (fun _ => true) 200).gaveUp = true := by
  decide

/-- C7 (amended): `delete_lab` performs the DELETE exactly when the initial
running check reports the lab running; it succeeds exactly when the lab
was already stopped or the DELETE returned 200, 202 or 204; when the lab
is already stopped it performs no delete and no waiting and returns the
same no-op result every time; but when it does delete, it polls the
running check, sleeping one second between polls up to ten times. -/
theorem delete_lab_amended (probes : Nat → Bool) (status : Nat) :
    ((delete_lab probes status).deleteIssued = probes 0) ∧
    ((delete_lab probes status).ok
      = (!(probes 0) || (status == 200 || status == 202 || status == 204))) ∧
    (probes 0 = false → delete_lab probes status = ⟨false, 0, false, true⟩) ∧
    ((delete_lab (fun _ => true) 200).sleeps = 10) := by
  refine ⟨?_, ?_, ?_, by decide⟩
  · cases hp : probes 0 with
    | false => simp [delete_lab, hp]
    | true =>
        by_cases hst : status = 200 ∨ status = 202 ∨ status = 204 <;>
          simp [delete_lab, hp, hst]
  · cases hp : probes 0 with
    | false => simp [delete_lab, hp]
    | true =>
        by_cases hst : status = 200 ∨ status = 202 ∨ status = 204
        · simp [delete_lab, hp, hst]
          rcases hst with h | h | h <;> simp [h]
        · simp [delete_lab, hp, hst]
          push_neg at hst
          simp [hst.1, hst.2.1, hst.2.2]
  · intro h
    simp [delete_lab, h]

/-- Evaluation of `delete_lab_amended` on an already-stopped environment. -/
theorem delete_lab_amended_witness :
    ((fun _ => false : Nat → Bool) 0 = false) ∧
    delete_lab (fun _ => false) 204 = ⟨false, 0, false, true⟩ :=
  ⟨rfl, (delete_lab_amended (fun _ => false) 204).2.2.1 rfl⟩

/-- C3 counterexample: with restart disabled, a clean Business return does
not exit the supervision loop (the loop restarts the Business
unconditionally after FINISHED), and a cancellation leaves the recorded
state as RUNNING — no STOPPED state is ever assigned. -/
theorem monkey_runner_counterexample :
    (runnerGo false [BusinessOutcome.clean]).exited = false ∧
    (runnerGo false [BusinessOutcome.cancelled]).states = ["RUNNING"] ∧
    "STOPPED" ∉ (runnerGo false [BusinessOutcome.cancelled]).states := by
  decide

theorem runnerGo_replicate_clean (n : Nat) (e : String) :
    runnerGo false (List.replicate n BusinessOutcome.clean ++ [BusinessOutcome.error e])
      = ⟨(List.replicate n ["RUNNING", "FINISHED"]).join ++ ["RUNNING", "ERROR"],
         [e], 1, true⟩ := by
  induction n with
  | zero => simp [runnerGo]
  | succ n ih =>
      rw [List.replicate_succ, List.cons_append]
      simp only [runnerGo, ih, List.replicate_succ, List.join_cons]
      simp

theorem runnerGo_all_errors (es : List String) :
    runnerGo true (es.map BusinessOutcome.error)
      = ⟨(es.map fun _ => ["RUNNING", "ERROR"]).join, es, es.length, false⟩ := by
  induction es with
  | nil => simp [runnerGo]
  | cons e es ih => simp [runnerGo, ih]

/-- C3 (amended): each pass of the supervision loop sets RUNNING before
running the Business; a clean return sets FINISHED and restarts
unconditionally (the restart flag is not consulted); cancellation exits
the loop leaving the state as it was (RUNNING) — no STOPPED state is set;
any other exception sets ERROR, forwards one alert, performs the
60-second backoff sleep even when restart is disabled, then restarts
exactly when restart is enabled; so with restart disabled the task exits
after the first failure, however many clean passes preceded it, and with
restart enabled an always-failing Business never exits and accumulates one
alert and one backoff sleep per failure. -/
theorem monkey_runner_amended (n : Nat) (e : String) (es : List String) (r : Bool)
    (rest : List BusinessOutcome) :
    (runnerGo r (BusinessOutcome.clean :: rest)).exited = (runnerGo r rest).exited ∧
    (runnerGo r (BusinessOutcome.clean :: rest)).states
      = "RUNNING" :: "FINISHED" :: (runnerGo r rest).states ∧
    runnerGo false (List.replicate n BusinessOutcome.clean ++ [BusinessOutcome.error e])
      = ⟨(List.replicate n ["RUNNING", "FINISHED"]).join ++ ["RUNNING", "ERROR"],
         [e], 1, true⟩ ∧
    runnerGo r (BusinessOutcome.cancelled :: rest) = ⟨["RUNNING"], [], 0, true⟩ ∧
    runnerGo true (es.map BusinessOutcome.error)
      = ⟨(es.map fun _ => ["RUNNING", "ERROR"]).join, es, es.length, false⟩ :=
  ⟨by simp [runnerGo], by simp [runnerGo],
   runnerGo_replicate_clean n e, by simp [runnerGo],
   runnerGo_all_errors es⟩

theorem decimalDigits_length (n : Nat) : (decimalDigits n).length = Nat.log 10 n + 1 := by
  induction n using Nat.strong_induction_on with
  | _ n ih =>
    by_cases h : n < 10
    · rw [decimalDigits, if_pos h, List.length_singleton, Nat.log_of_lt h]
    · push_neg at h
      rw [decimalDigits, if_neg (by omega), List.length_append,
        ih (n / 10) (Nat.div_lt_self (by omega) (by omega))]
      have hlog : Nat.log 10 (n / 10) = Nat.log 10 n - 1 := Nat.log_div_base 10 n
      have hpos : 0 < Nat.log 10 n := Nat.log_pos (by norm_num) h
      simp only [List.length_cons, List.length_nil, hlog]
      omega

theorem decimalDigits_length_le {n count : Nat} (h : n ≤ count) :
    (decimalDigits n).length ≤ Nat.log 10 count + 1 := by
  rw [decimalDigits_length]
  exact Nat.succ_le_succ (Nat.log_mono_right h)

theorem zfill_length {w : Nat} {s : List Char} (h : s.length ≤ w) :
    (zfill w s).length = w := by
  simp [zfill]
  omega

theorem fixedDigits_length (w n : Nat) : (fixedDigits w n).length = w := by
  induction w generalizing n with
  | zero => rfl
  | succ w ih => simp [fixedDigits, ih]

theorem fixedDigits_zero (w : Nat) : fixedDigits w 0 = List.replicate w '0' := by
  induction w with
  | zero => rfl
  | succ w ih => simp [fixedDigits, ih, List.replicate_succ', digitChar]

theorem zfill_eq_fixedDigits : ∀ {w n : Nat}, (decimalDigits n).length ≤ w →
    zfill w (decimalDigits n) = fixedDigits w n := by
  intro w
  induction w with
  | zero =>
      intro n h
      rw [decimalDigits_length] at h
      omega
  | succ w ih =>
      intro n h
      by_cases h10 : n < 10
      · rw [decimalDigits, if_pos h10]
        simp [zfill, fixedDigits, fixedDigits_zero, Nat.div_eq_of_lt h10,
          Nat.mod_eq_of_lt h10, List.replicate_succ']
      · rw [decimalDigits, if_neg h10] at h ⊢
        have hlen : (decimalDigits (n / 10)).length ≤ w := by
          simp only [List.length_append, List.length_cons, List.length_nil] at h
          omega
        have hz : zfill (w + 1) (decimalDigits (n / 10) ++ [digitChar (n % 10)])
            = zfill w (decimalDigits (n / 10)) ++ [digitChar (n % 10)] := by
          simp only [zfill, List.length_append, List.length_cons, List.length_nil,
            Nat.succ_sub_succ, List.append_assoc]
        rw [hz, ih hlen, fixedDigits]

theorem digitChar_lt {d e : Nat} (h1 : d < e) (h2 : e < 10) :
    digitChar d < digitChar e := by
  have hd : d < 10 := by omega
  interval_cases d <;> interval_cases e <;> first | omega | decide

theorem lex_append_of_lex {l₁ l₂ t₁ t₂ : List Char} (hlen : l₁.length = l₂.length)
    (h : List.Lex (· < ·) l₁ l₂) : List.Lex (· < ·) (l₁ ++ t₁) (l₂ ++ t₂) := by
  induction h generalizing t₁ t₂ with
  | nil => simp at hlen
  | cons h ih => exact List.Lex.cons (ih (by simpa using hlen))
  | rel h => exact List.Lex.rel h

theorem lex_append_last (l : List Char) {x y : Char} (h : x < y) :
    List.Lex (· < ·) (l ++ [x]) (l ++ [y]) := by
  induction l with
  | nil => exact List.Lex.rel h
  | cons c l ih => exact List.Lex.cons ih

theorem lex_append_left_congr (p : List Char) {A B : List Char}
    (h : List.Lex (· < ·) A B) : List.Lex (· < ·) (p ++ A) (p ++ B) := by
  induction p with
  | nil => exact h
  | cons c p ih => exact List.Lex.cons ih

theorem fixedDigits_lt : ∀ (w : Nat) {a b : Nat}, a < b → b < 10 ^ w →
    List.Lex (· < ·) (fixedDigits w a) (fixedDigits w b) := by
  intro w
  induction w with
  | zero =>
      intro a b hab hb
      exact absurd hab (by omega)
  | succ w ih =>
      intro a b hab hb
      rcases Nat.lt_or_ge (a / 10) (b / 10) with hq | hq
      · have hb10 : b / 10 < 10 ^ w := by
          rw [pow_succ] at hb
          exact (Nat.div_lt_iff_lt_mul (by omega)).mpr hb
        exact lex_append_of_lex (by simp [fixedDigits_length]) (ih hq hb10)
      · have hq' : a / 10 = b / 10 :=
          Nat.le_antisymm (Nat.div_le_div_right (Nat.le_of_lt hab)) hq
        have ha' := Nat.div_add_mod a 10
        have hb' := Nat.div_add_mod b 10
        have hr : a % 10 < b % 10 := by omega
        have hd : digitChar (a % 10) < digitChar (b % 10) :=
          digitChar_lt hr (Nat.mod_lt b (by omega))
        show List.Lex (· < ·) (fixedDigits w (a / 10) ++ [digitChar (a % 10)])
          (fixedDigits w (b / 10) ++ [digitChar (b % 10)])
        rw [hq']
        exact lex_append_last _ hd

theorem username_lt (p : String) {w a b : Nat} (hab : a < b)
    (ha : (decimalDigits a).length ≤ w) (hbl : (decimalDigits b).length ≤ w)
    (hb : b < 10 ^ w) :
    p ++ String.mk (zfill w (decimalDigits a)) < p ++ String.mk (zfill w (decimalDigits b)) := by
  rw [String.lt_iff_toList_lt]
  show List.Lex (· < ·) (p ++ String.mk (zfill w (decimalDigits a))).data
    (p ++ String.mk (zfill w (decimalDigits b))).data
  rw [String.data_append, String.data_append]
  show List.Lex (· < ·) (p.data ++ zfill w (decimalDigits a))
    (p.data ++ zfill w (decimalDigits b))
  rw [zfill_eq_fixedDigits ha, zfill_eq_fixedDigits hbl]
  exact lex_append_left_congr _ (fixedDigits_lt w hab hb)

/-- C5: generating users from a spec with `count = N ≥ 1` yields exactly
`N` users; the user at 0-based position `j - 1` (for `1 ≤ j ≤ N`) has
username `prefix ++ zfill (str j)`, uid `start + j - 1` and gid likewise
when starts are given (so the uids form the contiguous range
`start..start+N-1`); every username has the same fixed width
`prefix.length + padding`; and the usernames are strictly increasing in
string order. -/
theorem users_from_spec_generated (spec : UserSpec) (count : Nat) (hc : 1 ≤ count) :
    (users_from_spec spec count).length = count ∧
    (∀ j, 1 ≤ j → j ≤ count →
      (users_from_spec spec count)[j - 1]? = some
        { username := UserSpec.username_prefix spec
            ++ String.mk (zfill (Nat.log 10 count + 1) (decimalDigits j))
          uidnumber := (UserSpec.uid_start spec).map fun u => u + (j : Int) - 1
          gidnumber := (UserSpec.gid_start spec).map fun g => g + (j : Int) - 1 }) ∧
    (∀ u ∈ users_from_spec spec count,
      u.username.length
        = (UserSpec.username_prefix spec).length + (Nat.log 10 count + 1)) ∧
    List.Pairwise (fun u v : User => u.username < v.username)
      (users_from_spec spec count) := by
  refine ⟨by simp [users_from_spec], ?_, ?_, ?_⟩
  · intro j h1 h2
    have hj : 1 + (j - 1) = j := by omega
    have hcnt : j - 1 < count := by omega
    simp only [users_from_spec, List.getElem?_map, List.getElem?_range', hcnt,
      if_true, one_mul, hj]
    rfl
  · intro u hu
    simp only [users_from_spec, List.mem_map] at hu
    obtain ⟨i, hi, rfl⟩ := hu
    rw [List.mem_range'_1] at hi
    have hlen : (decimalDigits i).length ≤ Nat.log 10 count + 1 :=
      decimalDigits_length_le (by omega)
    show (UserSpec.username_prefix spec
        ++ String.mk (zfill (Nat.log 10 count + 1) (decimalDigits i))).length = _
    rw [String.length_append]
    have : (String.mk (zfill (Nat.log 10 count + 1) (decimalDigits i))).length
        = Nat.log 10 count + 1 := zfill_length hlen
    omega
  · rw [users_from_spec, List.pairwise_map]
    refine List.Pairwise.imp_of_mem ?_ (List.pairwise_lt_range' 1 count)
    intro a b ha hb hab
    rw [List.mem_range'_1] at ha hb
    show UserSpec.username_prefix spec ++ _ < UserSpec.username_prefix spec ++ _
    exact username_lt _ hab (decimalDigits_length_le (by omega))
      (decimalDigits_length_le (by omega))
      (lt_of_le_of_lt (by omega : b ≤ count)
        (Nat.lt_pow_succ_log_self (by norm_num) count))

/-- Evaluation of `users_from_spec_generated` on a three-user spec. -/
theorem users_from_spec_generated_witness :
    1 ≤ 3 ∧ (users_from_spec ⟨"u", some 100, some 200⟩ 3).length = 3 :=
  ⟨by omega, (users_from_spec_generated ⟨"u", some 100, some 200⟩ 3 (by omega)).1⟩

theorem consumeProgress_noReady (msgs : List ProgressMessage)
    (h : ∀ m ∈ msgs, m.ready = false) :
    ∀ acc, consumeProgress msgs acc = (false, acc.reverse ++ msgs) := by
  induction msgs with
  | nil => intro acc; simp [consumeProgress]
  | cons m rest ih =>
      intro acc
      have hm : m.ready = false := h m (List.mem_cons_self m rest)
      rw [consumeProgress]
      simp only [hm, if_false, Bool.false_eq_true]
      rw [ih (fun x hx => h x (List.mem_cons_of_mem _ hx)) (m :: acc)]
      simp

/-- C1 counterexample: a protocol error escaping the progress iteration
while the elapsed time (100 s) already exceeds the remaining budget
(30 s - 1 s) raises the provisioning-failure error
(`JupyterSpawnError.from_exception`), not the timeout error the claim
requires for elapsed > budget. -/
theorem spawn_lab_protocol_error_counterexample :
    (100 : ℚ) > 30 - 1 ∧
    nublado_spawn_lab 30 1 false [] (StreamOutcome.raisedOther "ProtocolError") false 100
      = SpawnResult.spawnErrorFrom "" "ProtocolError" ∧
    (nublado_spawn_lab 30 1 false [] (StreamOutcome.raisedOther "ProtocolError")
        false 100).isTimeoutError = false := by
  refine ⟨by norm_num, ?_, ?_⟩ <;> rfl

/-- C1 (amended): when the progress stream ends without a ready message
and the business is not stopping, the raised error is classified by
elapsed time: elapsed over the remaining budget (`spawn_timeout` minus the
settle pause) raises the timeout error stating the rounded elapsed
seconds, otherwise the provisioning-failure error; both carry the full
joined progress log. An exception escaping the iteration is not
classified: the Nublado variant wraps a non-Slack exception in the
provisioning-failure error (with the log) regardless of elapsed time, a
`TimeoutError` escape likewise yields the provisioning-failure error with
the log, and Slack-reportable errors are re-raised unchanged. A stop
request aborts silently. The legacy login-loop variant classifies the
same way over the whole `spawn_timeout` budget, but its timeout message
states the configured timeout, not the elapsed seconds, and it has no
handlers: every exception escaping its iteration propagates uncaught. -/
theorem spawn_lab_classification
    (spawn_timeout spawn_settle_time elapsed : ℚ) (msgs : List ProgressMessage)
    (stopping : Bool) (e : String) (legacy_timeout : Int)
    (hnr : ∀ m ∈ msgs, m.ready = false) :
    (stopping = false → elapsed > spawn_timeout - spawn_settle_time →
      nublado_spawn_lab spawn_timeout spawn_settle_time false msgs
          StreamOutcome.ended stopping elapsed
        = SpawnResult.timeoutError
            ("Lab did not spawn after " ++ toString (pyRound elapsed) ++ "s")
            (joinedLog msgs)) ∧
    (stopping = false → elapsed ≤ spawn_timeout - spawn_settle_time →
      nublado_spawn_lab spawn_timeout spawn_settle_time false msgs
          StreamOutcome.ended stopping elapsed
        = SpawnResult.spawnError (joinedLog msgs)) ∧
    (nublado_spawn_lab spawn_timeout spawn_settle_time false msgs
        (StreamOutcome.raisedOther e) stopping elapsed
      = SpawnResult.spawnErrorFrom (joinedLog msgs) e) ∧
    (stopping = true →
      nublado_spawn_lab spawn_timeout spawn_settle_time false msgs
          StreamOutcome.ended stopping elapsed
        = SpawnResult.returnedFalse) ∧
    (stopping = false → elapsed > (legacy_timeout : ℚ) →
      legacy_spawn_lab legacy_timeout msgs StreamOutcome.ended stopping elapsed
        = SpawnResult.timeoutError
            ("Lab did not spawn after " ++ toString legacy_timeout ++ "s")
            (joinedLog msgs)) ∧
    (stopping = false → elapsed ≤ (legacy_timeout : ℚ) →
      legacy_spawn_lab legacy_timeout msgs StreamOutcome.ended stopping elapsed
        = SpawnResult.spawnError (joinedLog msgs)) ∧
    (nublado_spawn_lab spawn_timeout spawn_settle_time false msgs
        StreamOutcome.raisedTimeout stopping elapsed
      = SpawnResult.spawnError (joinedLog msgs)) ∧
    (nublado_spawn_lab spawn_timeout spawn_settle_time false msgs
        (StreamOutcome.raisedSlack e) stopping elapsed
      = SpawnResult.reraised e) ∧
    (legacy_spawn_lab legacy_timeout msgs (StreamOutcome.raisedOther e) stopping elapsed
      = SpawnResult.uncaught e) ∧
    (legacy_spawn_lab legacy_timeout msgs (StreamOutcome.raisedSlack e) stopping elapsed
      = SpawnResult.uncaught e) ∧
    (legacy_spawn_lab legacy_timeout msgs StreamOutcome.raisedTimeout stopping elapsed
      = SpawnResult.uncaught "TimeoutError") := by
  have hcp : consumeProgress msgs [] = (false, msgs) := by
    simpa using consumeProgress_noReady msgs hnr []
  refine ⟨?_, ?_, ?_, ?_, ?_, ?_, ?_, ?_, ?_, ?_, ?_⟩
  · intro hs ht
    simp [nublado_spawn_lab, hcp, hs, ht]
  · intro hs ht
    simp [nublado_spawn_lab, hcp, hs, not_lt.mpr ht]
  · simp [nublado_spawn_lab, hcp]
  · intro hs
    simp [nublado_spawn_lab, hcp, hs]
  · intro hs ht
    simp [legacy_spawn_lab, hcp, hs, ht]
  · intro hs ht
    simp [legacy_spawn_lab, hcp, hs, not_lt.mpr ht]
  · simp [nublado_spawn_lab, hcp]
  · simp [nublado_spawn_lab, hcp]
  · simp [legacy_spawn_lab, hcp]
  · simp [legacy_spawn_lab, hcp]
  · simp [legacy_spawn_lab, hcp]

/-- Evaluation of `spawn_lab_classification` on one unready progress
message, elapsed 35 s against a 30 s - 1 s budget. -/
theorem spawn_lab_classification_witness :
    (∀ m ∈ [(⟨"waiting", false, "t0"⟩ : ProgressMessage)], m.ready = false) ∧
    ((false : Bool) = false) ∧ ((35 : ℚ) > 30 - 1) ∧
    nublado_spawn_lab 30 1 false [(⟨"waiting", false, "t0"⟩ : ProgressMessage)]
        StreamOutcome.ended false 35
      = SpawnResult.timeoutError
          ("Lab did not spawn after " ++ toString (pyRound (35 : ℚ)) ++ "s")
          (joinedLog [(⟨"waiting", false, "t0"⟩ : ProgressMessage)]) :=
  ⟨by decide, rfl, by norm_num,
   (spawn_lab_classification 30 1 35 [⟨"waiting", false, "t0"⟩] false "E" 20
      (by decide)).1 rfl (by norm_num)⟩

end Mobu
